import Mathlib

/-!
Shallow embedding of the CPACE calculator's line-item classification and
eligibility-aggregation engine:

* `src/lib/pace-criteria.ts` — keyword tables, `classifyLineItem`,
  `getEligibilityInfo`, `calculateEligibleAmount`;
* `src/lib/excel-parser.ts` — `isAggregateRow`, the row-materialization step
  of `parseExcelBuffer`;
* `src/lib/openai-agent.ts` — the `analyze_line_items` branch of
  `handleToolCall` (sheet lookup, per-row skipping and classification,
  running totals).

JS numbers are embedded as `ℚ` (exact rationals standing for the float
values the code manipulates), JS strings as `String` restricted to the
ASCII behaviour the code exercises (`toLowerCase`, `trim`, `\b`, `\s`, `\d`
are modelled on their ASCII meaning; the keyword and pattern tables are all
ASCII).  JS regular-expression tests are embedded by a small backtracking
matcher over an element list, below.
-/

/-- ASCII whitespace recognised by the embedding of JS `trim()` / `\s`. -/
def isJsSpace (c : Char) : Bool :=
  c == ' ' || c == '\t' || c == '\n' || c == '\r' || c == '\x0b' || c == '\x0c'

/-- Embedding of JS `toLowerCase` on one character (ASCII case mapping). -/
def jsCharLower (c : Char) : Char :=
  if c.isUpper then Char.ofNat (c.toNat + 32) else c

/-- Embedding of JS `String.prototype.toLowerCase` (ASCII). -/
def jsToLower (s : String) : String :=
  ⟨s.toList.map jsCharLower⟩

/-- Embedding of JS `String.prototype.trim` (ASCII whitespace). -/
def jsTrim (s : String) : String :=
  ⟨((s.toList.dropWhile isJsSpace).reverse.dropWhile isJsSpace).reverse⟩

/-- `charsStartWith needle hay`: does `hay` start with `needle`? -/
def charsStartWith : List Char → List Char → Bool
  | [], _ => true
  | _ :: _, [] => false
  | n :: ns, h :: hs => n == h && charsStartWith ns hs

/-- `charsContain hay needle`: does `hay` contain `needle` as a contiguous
run?  Embeds JS `String.prototype.includes`. -/
def charsContain : List Char → List Char → Bool
  | [], needle => charsStartWith needle []
  | h :: hs, needle => charsStartWith needle (h :: hs) || charsContain hs needle

/-- Embedding of JS `s.includes(sub)`. -/
def jsIncludes (s sub : String) : Bool :=
  charsContain s.toList sub.toList

/-- JS regex word character (`\w` / the `\b` word class): ASCII letters,
digits and underscore. -/
def jsWordChar (c : Char) : Bool :=
  c.isAlphanum || c == '_'

def optWord : Option Char → Bool
  | none => false
  | some c => jsWordChar c

/-- JS `\b`: the word-ness of the characters on the two sides of a position
differs (out of range counts as non-word). -/
def isBoundary (prev next : Option Char) : Bool :=
  optWord prev != optWord next

/-- One element of a JS regular expression, as used by the patterns in the
source: a literal character, a character class, `class*`, `class+`, a
one-character option `c?`, and the `\b` assertion.  `.` is the class of
non-line-terminator characters. -/
inductive RElem
  | lit (c : Char)
  | cls (p : Char → Bool)
  | star (p : Char → Bool)
  | plus (p : Char → Bool)
  | opt (c : Char)
  | bnd

/-- All states reachable from `(prev, cs)` by consuming zero or more
characters satisfying `p`; each state is the preceding character plus the
remaining input. -/
def expand (p : Char → Bool) : Option Char → List Char → List (Option Char × List Char)
  | prev, [] => [(prev, [])]
  | prev, d :: cs =>
      (prev, d :: cs) :: (if p d then expand p (some d) cs else [])

/-- Backtracking matcher: does some way of consuming `cs` match the element
list?  `prev` is the character just before the current position (for `\b`);
when `anchEnd` is set the whole remaining input must be consumed (`$`). -/
def reM (anchEnd : Bool) : List RElem → Option Char → List Char → Bool
  | [], _, cs => if anchEnd then cs.isEmpty else true
  | .lit c :: es, _, cs =>
      match cs with
      | [] => false
      | d :: cs2 => d == c && reM anchEnd es (some d) cs2
  | .cls p :: es, _, cs =>
      match cs with
      | [] => false
      | d :: cs2 => p d && reM anchEnd es (some d) cs2
  | .star p :: es, prev, cs =>
      (expand p prev cs).any fun st => reM anchEnd es st.1 st.2
  | .plus p :: es, _, cs =>
      match cs with
      | [] => false
      | d :: cs2 =>
          p d && (expand p (some d) cs2).any fun st => reM anchEnd es st.1 st.2
  | .opt c :: es, prev, cs =>
      (match cs with
       | [] => false
       | d :: cs2 => d == c && reM anchEnd es (some d) cs2)
      || reM anchEnd es prev cs
  | .bnd :: es, prev, cs => isBoundary prev cs.head? && reM anchEnd es prev cs

/-- Try to match starting at every position of the input (unanchored
search, as JS `RegExp.prototype.test` does). -/
def reSearch (anchEnd : Bool) (es : List RElem) : Option Char → List Char → Bool
  | prev, [] => reM anchEnd es prev []
  | prev, d :: cs => reM anchEnd es prev (d :: cs) || reSearch anchEnd es (some d) cs

/-- Embedding of `regex.test(s)` for a pattern optionally anchored with `^`
(`anchStart`) and `$` (`anchEnd`). -/
def reTest (anchStart anchEnd : Bool) (es : List RElem) (s : String) : Bool :=
  if anchStart then reM anchEnd es none s.toList else reSearch anchEnd es none s.toList

/-- Literal characters of a string, as regex elements. -/
def litsOf (s : String) : List RElem :=
  s.toList.map RElem.lit

/-- A whole pattern: anchoring flags plus the element list. -/
structure RePat where
  anchStart : Bool
  anchEnd : Bool
  elems : List RElem

def testPat (p : RePat) (s : String) : Bool :=
  reTest p.anchStart p.anchEnd p.elems s

/-! ## excel-parser: aggregate-row detection

The seventeen patterns of `isAggregateRow` (sixteen in `aggregatePatterns`
plus the final bare CSI line-item check), element for element from the
source.  They are applied to the trimmed, lower-cased description, so the
`i` flags of the two division patterns are no-ops. -/

def wsC : Char → Bool := isJsSpace
def digitC : Char → Bool := Char.isDigit
/-- JS `.`: any character except a line terminator. -/
def dotC : Char → Bool := fun c => !(c == '\n' || c == '\r')

/-- `/\bsubtotal\b/` -/
def pSubtotal : RePat := ⟨false, false, [.bnd] ++ litsOf "subtotal" ++ [.bnd]⟩
/-- `/\bsub-total\b/` -/
def pSubDashTotal : RePat := ⟨false, false, [.bnd] ++ litsOf "sub-total" ++ [.bnd]⟩
/-- `/\bsub total\b/` -/
def pSubSpaceTotal : RePat := ⟨false, false, [.bnd] ++ litsOf "sub total" ++ [.bnd]⟩
/-- `/^total\b/` -/
def pLeadingTotal : RePat := ⟨true, false, litsOf "total" ++ [.bnd]⟩
/-- `/\btotal\s*$/` -/
def pTrailingTotal : RePat := ⟨false, true, [.bnd] ++ litsOf "total" ++ [.star wsC]⟩
/-- `/\btotal\s*[-:]/` -/
def pTotalDashColon : RePat :=
  ⟨false, false, [.bnd] ++ litsOf "total" ++ [.star wsC, .cls (fun c => c == '-' || c == ':')]⟩
/-- `/\bgrand\s*total\b/` -/
def pGrandTotal : RePat :=
  ⟨false, false, [.bnd] ++ litsOf "grand" ++ [.star wsC] ++ litsOf "total" ++ [.bnd]⟩
/-- `/\bhard\s*cost.*total/` -/
def pHardCostTotal : RePat :=
  ⟨false, false, [.bnd] ++ litsOf "hard" ++ [.star wsC] ++ litsOf "cost" ++ [.star dotC] ++ litsOf "total"⟩
/-- `/\bsoft\s*cost.*total/` -/
def pSoftCostTotal : RePat :=
  ⟨false, false, [.bnd] ++ litsOf "soft" ++ [.star wsC] ++ litsOf "cost" ++ [.star dotC] ++ litsOf "total"⟩
/-- `/\bproject\s*total\b/` -/
def pProjectTotal : RePat :=
  ⟨false, false, [.bnd] ++ litsOf "project" ++ [.star wsC] ++ litsOf "total" ++ [.bnd]⟩
/-- `/\bcontract\s*total\b/` -/
def pContractTotal : RePat :=
  ⟨false, false, [.bnd] ++ litsOf "contract" ++ [.star wsC] ++ litsOf "total" ++ [.bnd]⟩
/-- `/\bconstruction\s*total\b/` -/
def pConstructionTotal : RePat :=
  ⟨false, false, [.bnd] ++ litsOf "construction" ++ [.star wsC] ++ litsOf "total" ++ [.bnd]⟩
/-- `/\bdivision\s+\d+\s*total/i` -/
def pDivisionTotal : RePat :=
  ⟨false, false, [.bnd] ++ litsOf "division" ++ [.plus wsC, .plus digitC, .star wsC] ++ litsOf "total"⟩
/-- `/\bdivision\s+\d+\s*-?\s*$/` -/
def pDivisionDash : RePat :=
  ⟨false, true, [.bnd] ++ litsOf "division" ++ [.plus wsC, .plus digitC, .star wsC, .opt '-', .star wsC]⟩
/-- `/^\d{2}\s*0000\s*$/` -/
def pCsiSection : RePat :=
  ⟨true, true, [.cls digitC, .cls digitC, .star wsC] ++ litsOf "0000" ++ [.star wsC]⟩
/-- `/^division\s+\d+$/i` -/
def pDivisionBare : RePat :=
  ⟨true, true, litsOf "division" ++ [.plus wsC, .plus digitC]⟩
/-- `/^\d{2}\s+\d{4}$/` (checked separately, after the pattern loop). -/
def pCsiLineItem : RePat :=
  ⟨true, true, [.cls digitC, .cls digitC, .plus wsC, .cls digitC, .cls digitC, .cls digitC, .cls digitC]⟩

/-- The `aggregatePatterns` array of the source, in order. -/
def aggregatePatterns : List RePat :=
  [pSubtotal, pSubDashTotal, pSubSpaceTotal, pLeadingTotal, pTrailingTotal,
   pTotalDashColon, pGrandTotal, pHardCostTotal, pSoftCostTotal, pProjectTotal,
   pContractTotal, pConstructionTotal, pDivisionTotal, pDivisionDash,
   pCsiSection, pDivisionBare]

/-- Embedding of `isAggregateRow` from `excel-parser.ts`: a string is falsy
in JS exactly when it is empty; otherwise the patterns are tested against
`description.toLowerCase().trim()`, and finally `pCsiLineItem` against
`lower.trim()`. -/
def isAggregateRow (description : String) : Bool :=
  if description == "" then true
  else
    let lower := jsTrim (jsToLower description)
    aggregatePatterns.any (fun p => testPat p lower) || testPat pCsiLineItem (jsTrim lower)

/-! ## pace-criteria: categories, keyword tables, classifier -/

inductive EligibilityCategory
  | hvac | solar_renewable | lighting | building_envelope | water_efficiency
  | ev_charging | energy_storage | electrical | plumbing | not_eligible
deriving DecidableEq, Repr

open EligibilityCategory

/-- `PACE_ELIGIBILITY[category].percentage`. -/
def PACE_percentage : EligibilityCategory → ℚ
  | hvac => 1
  | solar_renewable => 1
  | lighting => 1
  | building_envelope => 1
  | water_efficiency => 1
  | ev_charging => 1
  | energy_storage => 1
  | electrical => 1/2
  | plumbing => 3/4
  | not_eligible => 0

/-- `PACE_ELIGIBILITY[category].description`. -/
def PACE_description : EligibilityCategory → String
  | hvac => "HVAC systems including heating, ventilation, air conditioning, chillers, boilers"
  | solar_renewable => "Solar panels, wind turbines, geothermal systems, renewable energy installations"
  | lighting => "LED lighting, lighting controls, energy-efficient lighting retrofits"
  | building_envelope => "Insulation, windows, roofing, doors, air sealing, building shell improvements"
  | water_efficiency => "Low-flow fixtures, water recycling systems, efficient irrigation, water heaters"
  | ev_charging => "Electric vehicle charging stations and infrastructure"
  | energy_storage => "Battery storage systems, thermal storage"
  | electrical => "General electrical work (partially eligible if supporting energy efficiency)"
  | plumbing => "Plumbing work (eligible if water-efficient fixtures or systems)"
  | not_eligible => "Not eligible for PACE financing"

/-- `CATEGORY_KEYWORDS`, list for list from the source. -/
def CATEGORY_KEYWORDS : EligibilityCategory → List String
  | hvac =>
    ["hvac", "heating", "ventilation", "air conditioning", "ac unit", "a/c",
     "furnace", "boiler", "chiller", "heat pump", "ductwork", "thermostat",
     "vrf", "rtu", "ahu", "air handler", "condenser", "compressor", "cooling tower",
     "mini-split", "minisplit", "package unit", "split system", "mechanical"]
  | solar_renewable =>
    ["solar", "photovoltaic", "pv system", "pv array", "inverter", "renewable",
     "wind turbine", "geothermal", "ground source"]
  | lighting =>
    ["lighting", "led", "light fixture", "lamp", "luminaire",
     "occupancy sensor", "daylight sensor", "dimmer", "ballast"]
  | building_envelope =>
    ["insulation", "window", "glazing", "roofing", "roof membrane", "door",
     "weatherization", "air seal", "envelope", "cladding", "facade",
     "skylight", "curtain wall", "thermal barrier", "r-value", "waterproofing"]
  | water_efficiency =>
    ["low-flow", "water recycl", "water reclaim", "greywater", "rainwater",
     "efficient irrigation", "drip irrigation"]
  | ev_charging =>
    ["ev charging", "electric vehicle charging", "charging station", "evse",
     "level 2 charger", "dc fast charg"]
  | energy_storage =>
    ["battery storage", "energy storage", "powerwall", "backup battery",
     "thermal storage", "ice storage"]
  | electrical =>
    ["electrical", "wiring", "electrical panel", "circuit breaker", "transformer",
     "switchgear", "electrical distribution"]
  | plumbing =>
    ["plumbing", "domestic water", "sanitary", "sewer", "water pipe"]
  | not_eligible =>
    ["furniture", "carpet", "paint", "cosmetic", "landscaping", "signage",
     "appliance", "kitchen", "elevator", "escalator", "security", "fire alarm",
     "fire sprinkler", "maintenance", "repair", "cleaning", "demolition",
     "general conditions", "general requirements", "fee", "overhead", "profit",
     "permit", "insurance", "bond", "contingency", "concrete", "masonry",
     "structural steel", "framing", "drywall", "flooring", "tile", "countertop",
     "cabinet", "millwork", "specialties", "equipment", "conveying"]

/-- `EXCLUSION_RULES`, entry for entry (object-literal insertion order). -/
def EXCLUSION_RULES : List (String × List EligibilityCategory) :=
  [("elevator", [ev_charging]),
   ("conveying", [ev_charging]),
   ("fireproof", [building_envelope]),
   ("fire", [building_envelope]),
   ("fixture", [building_envelope])]

/-- The short-circuit of `classifyLineItem`: some `not_eligible` keyword of
length at least 6 occurs in the lower-cased description. -/
def notEligibleShortCircuit (lowerDesc : String) : Bool :=
  (CATEGORY_KEYWORDS not_eligible).any fun kw =>
    charsContain lowerDesc.toList (jsToLower kw).toList && decide (6 ≤ kw.length)

/-- Is `cat` in the exclusion set built from the description? -/
def isExcluded (lowerDesc : String) (cat : EligibilityCategory) : Bool :=
  EXCLUSION_RULES.any fun r =>
    charsContain lowerDesc.toList r.1.toList && r.2.contains cat

/-- Score of one keyword against the description: `2 × length` for a
substring hit plus `1 × length` when the word-boundary regex
`new RegExp("\\b" + keyword + "\\b", "i")` also matches.  The `i` flag is
embedded by matching the (already lower-case) keyword in the lower-cased
description. -/
def keywordScore (lowerDesc : String) (kw : String) : ℕ :=
  if charsContain lowerDesc.toList (jsToLower kw).toList then
    kw.length * 2 +
      (if reTest false false ([.bnd] ++ litsOf (jsToLower kw) ++ [.bnd]) lowerDesc
       then kw.length else 0)
  else 0

/-- Total score of a category: the keyword loop of the source. -/
def categoryScore (lowerDesc : String) (cat : EligibilityCategory) : ℕ :=
  ((CATEGORY_KEYWORDS cat).map (keywordScore lowerDesc)).sum

/-- The `categoryOrder` array of the source. -/
def categoryOrder : List EligibilityCategory :=
  [ev_charging, solar_renewable, energy_storage,
   hvac, lighting, water_efficiency,
   building_envelope,
   electrical, plumbing]

/-- The best-so-far update of the source's scoring loop: replace the current
best only on strict improvement. -/
def foldStep (best x : EligibilityCategory × ℕ) : EligibilityCategory × ℕ :=
  if best.2 < x.2 then x else best

/-- The scoring loop of `classifyLineItem`: walk `categoryOrder`, skip
excluded categories, keep the strictly best score (initially
`(not_eligible, 0)`). -/
def selectBest (excl : EligibilityCategory → Bool) (score : EligibilityCategory → ℕ)
    (l : List EligibilityCategory) : EligibilityCategory × ℕ :=
  l.foldl (fun best cat => if excl cat then best else foldStep best (cat, score cat))
    (not_eligible, 0)

/-- Embedding of `classifyLineItem` from `pace-criteria.ts`. -/
def classifyLineItem (description : String) : EligibilityCategory × ℚ :=
  let lowerDesc := jsToLower description
  if notEligibleShortCircuit lowerDesc then (not_eligible, 9/10)
  else
    let best := selectBest (isExcluded lowerDesc) (categoryScore lowerDesc) categoryOrder
    (best.1, if 0 < best.2 then min ((best.2 : ℚ) / 30) 1 else 0)

/-- Embedding of `calculateEligibleAmount`. -/
def calculateEligibleAmount (amount : ℚ) (category : EligibilityCategory) : ℚ :=
  amount * PACE_percentage category

/-! ## Data model: cells, rows, sheets, workbooks -/

/-- A spreadsheet cell value as materialized by the parser: string, number,
boolean, or null (`defval: null`). -/
inductive CellValue
  | str (s : String)
  | num (q : ℚ)
  | boolean (b : Bool)
  | null
deriving DecidableEq, Repr

/-- A row record: header name to cell value.  A key absent from the list is
a JS `undefined` lookup. -/
abbrev Row := List (String × CellValue)

def lookupCell (row : Row) (key : String) : Option CellValue :=
  (row.find? (fun kv => kv.1 == key)).map (fun kv => kv.2)

/-- JS truthiness of a cell value (`NaN` does not arise: numbers are exact
rationals here). -/
def jsTruthy : CellValue → Bool
  | .str s => decide (s ≠ "")
  | .num q => decide (q ≠ 0)
  | .boolean b => b
  | .null => false

/-- JS `String(v)` for a cell value.  Only integral numbers are rendered
faithfully; no verified code path depends on the rendering of a
non-integral number. -/
def jsString : CellValue → String
  | .str s => s
  | .num q => if q.den = 1 then toString q.num else toString q
  | .boolean b => if b then "true" else "false"
  | .null => "null"

/-- `String(row[descCol] || '')`: an absent key is `undefined` (falsy), a
falsy cell value is replaced by `''`. -/
def descriptionOf (row : Row) (descCol : String) : String :=
  match lookupCell row descCol with
  | none => ""
  | some v => if jsTruthy v then jsString v else ""

/-- `Number(s)` for a string, defaulting to 0 as the following `|| 0` does.
Only integral numerals are modelled; no verified code path feeds a
non-integral numeric string to the amount column. -/
def strToNumOr0 (s : String) : ℚ :=
  if jsTrim s = "" then 0
  else match (jsTrim s).toInt? with
    | some n => (n : ℚ)
    | none => 0

/-- `Number(row[amountCol]) || 0`: `undefined` and non-numeric strings give
`NaN`, which `|| 0` turns into 0; `null` and `false` coerce to 0. -/
def amountOf (row : Row) (amountCol : String) : ℚ :=
  match lookupCell row amountCol with
  | none => 0
  | some (.num q) => q
  | some (.str s) => strToNumOr0 s
  | some (.boolean b) => if b then 1 else 0
  | some .null => 0

/-- A parsed sheet.  `sampleRows` (a prefix of `rows` kept for
structure-preview callers) plays no part in analysis and is omitted. -/
structure Sheet where
  name : String
  headers : List String
  rows : List Row
deriving DecidableEq, Repr

/-- A parsed workbook; `id` and `filename` play no part in analysis and are
omitted. -/
structure ParsedWorkbook where
  sheets : List Sheet
deriving DecidableEq, Repr

/-- `getSheetByName` from `excel-parser.ts`. -/
def getSheetByName (wb : ParsedWorkbook) (sheetName : String) : Option Sheet :=
  wb.sheets.find? (fun s => s.name == sheetName)

/-- The row-materialization step of `parseExcelBuffer`:
`rows.length > 0 && rows[0] ? rows.slice(1) : rows`.  `rows` is what
`sheet_to_json` returns for the range starting at the detected header row,
i.e. the data rows after the header; when it is nonempty, `rows[0]` is a
row object, and objects are always truthy in JS. -/
def materializeDataRows (rows : List Row) : List Row :=
  if 0 < rows.length then rows.drop 1 else rows

/-! ## The analyze_line_items tool handler -/

structure LineItemAnalysis where
  rowIndex : ℕ
  description : String
  originalAmount : ℚ
  eligibleAmount : ℚ
  eligibilityCategory : EligibilityCategory
  eligibilityPercentage : ℚ
  reasoning : String
deriving DecidableEq, Repr

/-- The accumulator of the `analyze_line_items` loop, which is also the
analysis result: emitted line items, both running totals, and the
aggregate-skip counter. -/
structure AnalysisResult where
  lineItems : List LineItemAnalysis
  totalOriginal : ℚ
  totalEligible : ℚ
  skippedAggregates : ℕ
deriving DecidableEq, Repr

def emptyResult : AnalysisResult := ⟨[], 0, 0, 0⟩

/-- One iteration of the `analyze_line_items` row loop. -/
def processRow (descCol amountCol : String) (acc : AnalysisResult) (rowIndex : ℕ)
    (row : Row) : AnalysisResult :=
  let description := descriptionOf row descCol
  let amount := amountOf row amountCol
  if description = "" ∨ amount = 0 then acc
  else if isAggregateRow description then
    { acc with skippedAggregates := acc.skippedAggregates + 1 }
  else
    let classification := classifyLineItem description
    let eligibleAmount := calculateEligibleAmount amount classification.1
    { lineItems := acc.lineItems ++
        [{ rowIndex := rowIndex
           description := description
           originalAmount := amount
           eligibleAmount := eligibleAmount
           eligibilityCategory := classification.1
           eligibilityPercentage := PACE_percentage classification.1
           reasoning := PACE_description classification.1 }]
      totalOriginal := acc.totalOriginal + amount
      totalEligible := acc.totalEligible + eligibleAmount
      skippedAggregates := acc.skippedAggregates }

/-- Pair each row with its 0-based index (the loop counter `i`). -/
def enumRows : ℕ → List Row → List (ℕ × Row)
  | _, [] => []
  | n, r :: rs => (n, r) :: enumRows (n + 1) rs

/-- The whole `analyze_line_items` pass over a sheet, given the chosen
description and amount columns. -/
def analyzeLineItems (sheet : Sheet) (descCol amountCol : String) : AnalysisResult :=
  (enumRows 0 sheet.rows).foldl (fun acc p => processRow descCol amountCol acc p.1 p.2)
    emptyResult

/-- The `analyze_line_items` branch of `handleToolCall`: only a failed sheet
lookup produces an error result; otherwise the analysis pass runs. -/
def analyzeTool (wb : ParsedWorkbook) (sheetName descCol amountCol : String) :
    Except String AnalysisResult :=
  match getSheetByName wb sheetName with
  | none => .error ("Sheet \x22" ++ sheetName ++ "\x22 not found")
  | some sheet => .ok (analyzeLineItems sheet descCol amountCol)

/-! ## Spec-side restatement of the classifier's selection rule (for the
refinement claim): the non-excluded candidates in priority order, the
maximum score, and the earliest candidate attaining it. -/

/-- Maximum of the scores in a candidate list (0 when empty). -/
def maxScoreL : List (EligibilityCategory × ℕ) → ℕ
  | [] => 0
  | x :: t => if maxScoreL t ≤ x.2 then x.2 else maxScoreL t

/-- The non-excluded candidate categories in priority order, each with its
score. -/
def classifyCandidates (lowerDesc : String) : List (EligibilityCategory × ℕ) :=
  (categoryOrder.filter (fun c => !isExcluded lowerDesc c)).map
    (fun c => (c, categoryScore lowerDesc c))

/-- The classifier as the specification states it: score every non-excluded
candidate category, return the one with the strictly highest score (ties
kept by the earlier-priority category, i.e. the earliest candidate
attaining the maximum), with confidence `min(bestScore/30, 1)` when the
best score is positive, and `not_eligible` with confidence 0 otherwise. -/
def classifySpec (description : String) : EligibilityCategory × ℚ :=
  let lowerDesc := jsToLower description
  let cands := classifyCandidates lowerDesc
  let M := maxScoreL cands
  if 0 < M then
    (((cands.find? (fun x => x.2 == M)).getD (not_eligible, 0)).1, min ((M : ℚ) / 30) 1)
  else (not_eligible, 0)

/-! ## Concrete inputs used by the examples -/

/-- The sheet of spec Example 4: three rows over a Description/Amount column
pair. -/
def exampleSheet : Sheet :=
  { name := "Sheet1"
    headers := ["Description", "Amount"]
    rows :=
      [[("Description", .str "HVAC Replacement"), ("Amount", .num 100000)],
       [("Description", .str "Subtotal"), ("Amount", .num 100000)],
       [("Description", .str "Furniture"), ("Amount", .num 5000)]] }

/-- A workbook whose single sheet has only a column named "A": looking up
any other column name misses. -/
def exampleWorkbookA : ParsedWorkbook :=
  { sheets :=
      [{ name := "Sheet1"
         headers := ["A"]
         rows := [[("A", .str "HVAC Replacement")]] }] }

/-! ## Helper lemmas: the scoring fold picks the earliest maximum -/

theorem foldl_skip_filter (excl : EligibilityCategory → Bool)
    (score : EligibilityCategory → ℕ) :
    ∀ (l : List EligibilityCategory) (b : EligibilityCategory × ℕ),
      l.foldl (fun best cat => if excl cat then best else foldStep best (cat, score cat)) b
        = List.foldl foldStep b ((l.filter (fun c => !excl c)).map (fun c => (c, score c))) := by
  intro l
  induction l with
  | nil => intro b; rfl
  | cons c t ih =>
    intro b
    cases h : excl c with
    | true => simp [List.foldl_cons, List.filter_cons, h, ih]
    | false => simp [List.foldl_cons, List.filter_cons, h, ih]

theorem maxScoreL_cons (x : EligibilityCategory × ℕ) (t : List (EligibilityCategory × ℕ)) :
    maxScoreL (x :: t) = if maxScoreL t ≤ x.2 then x.2 else maxScoreL t := rfl

theorem maxScoreL_attained :
    ∀ (l : List (EligibilityCategory × ℕ)), 0 < maxScoreL l →
      ∃ y, l.find? (fun x => x.2 == maxScoreL l) = some y ∧ y.2 = maxScoreL l := by
  intro l
  induction l with
  | nil => intro h; simp [maxScoreL] at h
  | cons x t ih =>
    intro h
    by_cases hx : x.2 = maxScoreL (x :: t)
    · exact ⟨x, List.find?_cons_of_pos _ (by simp [hx]), hx⟩
    · have hM : maxScoreL (x :: t) = maxScoreL t := by
        rw [maxScoreL_cons] at hx ⊢
        by_cases hc : maxScoreL t ≤ x.2
        · exact absurd (by rw [if_pos hc]) hx
        · rw [if_neg hc]
      rw [hM] at h ⊢
      obtain ⟨y, hy, hy2⟩ := ih h
      refine ⟨y, ?_, hy2⟩
      rw [List.find?_cons_of_neg _ (by simp [beq_iff_eq]; rw [hM] at hx; exact hx), hy]

theorem foldl_foldStep_eq :
    ∀ (l : List (EligibilityCategory × ℕ)) (b : EligibilityCategory × ℕ),
      List.foldl foldStep b l =
        if b.2 < maxScoreL l then (l.find? (fun x => x.2 == maxScoreL l)).getD b else b := by
  intro l
  induction l with
  | nil => intro b; simp [maxScoreL]
  | cons x t ih =>
    intro b
    rw [List.foldl_cons, ih]
    rcases Nat.lt_or_ge b.2 x.2 with hbx | hbx
    · have hstep : foldStep b x = x := by simp [foldStep, hbx]
      rw [hstep]
      rcases Nat.lt_or_ge x.2 (maxScoreL t) with hsM | hsM
      · have hM : maxScoreL (x :: t) = maxScoreL t := by
          rw [maxScoreL_cons, if_neg (by omega)]
        obtain ⟨y, hy, hy2⟩ := maxScoreL_attained t (by omega)
        rw [if_pos hsM, hM, if_pos (show b.2 < maxScoreL t by omega),
          List.find?_cons_of_neg _ (by simp [beq_iff_eq]; omega), hy]
        simp
      · have hM : maxScoreL (x :: t) = x.2 := by
          rw [maxScoreL_cons, if_pos (by omega)]
        rw [if_neg (Nat.not_lt.mpr hsM), hM, if_pos hbx,
          List.find?_cons_of_pos _ (by simp)]
        simp
    · have hstep : foldStep b x = b := by simp [foldStep, Nat.not_lt.mpr hbx]
      rw [hstep]
      rcases Nat.lt_or_ge b.2 (maxScoreL t) with hbM | hbM
      · have hM : maxScoreL (x :: t) = maxScoreL t := by
          rw [maxScoreL_cons, if_neg (by omega)]
        rw [if_pos hbM, hM, if_pos hbM,
          List.find?_cons_of_neg _ (by simp [beq_iff_eq]; omega)]
      · have hM : ¬ b.2 < maxScoreL (x :: t) := by
          rw [maxScoreL_cons]
          by_cases hc : maxScoreL t ≤ x.2
          · rw [if_pos hc]; omega
          · rw [if_neg hc]; omega
        rw [if_neg (Nat.not_lt.mpr hbM), if_neg hM]

theorem selectBest_char (excl : EligibilityCategory → Bool)
    (score : EligibilityCategory → ℕ) (l : List EligibilityCategory) :
    selectBest excl score l =
      (if 0 < maxScoreL ((l.filter (fun c => !excl c)).map (fun c => (c, score c))) then
        (((l.filter (fun c => !excl c)).map (fun c => (c, score c))).find?
            (fun x => x.2 == maxScoreL ((l.filter (fun c => !excl c)).map (fun c => (c, score c))))).getD
          (EligibilityCategory.not_eligible, 0)
      else (EligibilityCategory.not_eligible, 0)) := by
  unfold selectBest
  rw [foldl_skip_filter, foldl_foldStep_eq]

/-! ## Helper lemmas: row processing -/

theorem processRow_skip (dc ac : String) (acc : AnalysisResult) (i : ℕ) (row : Row)
    (h : descriptionOf row dc = "" ∨ amountOf row ac = 0) :
    processRow dc ac acc i row = acc := by
  simp only [processRow]
  rw [if_pos h]

theorem processRow_aggregate (dc ac : String) (acc : AnalysisResult) (i : ℕ) (row : Row)
    (hd : descriptionOf row dc ≠ "") (ha : amountOf row ac ≠ 0)
    (hagg : isAggregateRow (descriptionOf row dc) = true) :
    processRow dc ac acc i row = { acc with skippedAggregates := acc.skippedAggregates + 1 } := by
  simp only [processRow]
  rw [if_neg (not_or.mpr ⟨hd, ha⟩), if_pos hagg]

theorem processRow_accept (dc ac : String) (acc : AnalysisResult) (i : ℕ) (row : Row)
    (hd : descriptionOf row dc ≠ "") (ha : amountOf row ac ≠ 0)
    (hagg : isAggregateRow (descriptionOf row dc) = false) :
    processRow dc ac acc i row =
      { lineItems := acc.lineItems ++
          [{ rowIndex := i
             description := descriptionOf row dc
             originalAmount := amountOf row ac
             eligibleAmount := calculateEligibleAmount (amountOf row ac)
               (classifyLineItem (descriptionOf row dc)).1
             eligibilityCategory := (classifyLineItem (descriptionOf row dc)).1
             eligibilityPercentage := PACE_percentage (classifyLineItem (descriptionOf row dc)).1
             reasoning := PACE_description (classifyLineItem (descriptionOf row dc)).1 }]
        totalOriginal := acc.totalOriginal + amountOf row ac
        totalEligible := acc.totalEligible +
          calculateEligibleAmount (amountOf row ac) (classifyLineItem (descriptionOf row dc)).1
        skippedAggregates := acc.skippedAggregates } := by
  simp only [processRow]
  rw [if_neg (not_or.mpr ⟨hd, ha⟩), if_neg (by simp [hagg])]

theorem processRow_inv (dc ac : String) (acc : AnalysisResult) (i : ℕ) (row : Row)
    (h1 : acc.totalOriginal = (acc.lineItems.map (fun li => li.originalAmount)).sum)
    (h2 : acc.totalEligible = (acc.lineItems.map (fun li => li.eligibleAmount)).sum) :
    (processRow dc ac acc i row).totalOriginal
        = ((processRow dc ac acc i row).lineItems.map (fun li => li.originalAmount)).sum ∧
      (processRow dc ac acc i row).totalEligible
        = ((processRow dc ac acc i row).lineItems.map (fun li => li.eligibleAmount)).sum := by
  simp only [processRow]
  split
  · exact ⟨h1, h2⟩
  · split
    · exact ⟨h1, h2⟩
    · constructor <;> simp [h1, h2]

theorem foldl_rows_inv (dc ac : String) :
    ∀ (l : List (ℕ × Row)) (acc : AnalysisResult),
      acc.totalOriginal = (acc.lineItems.map (fun li => li.originalAmount)).sum →
      acc.totalEligible = (acc.lineItems.map (fun li => li.eligibleAmount)).sum →
      (l.foldl (fun a p => processRow dc ac a p.1 p.2) acc).totalOriginal
          = ((l.foldl (fun a p => processRow dc ac a p.1 p.2) acc).lineItems.map
              (fun li => li.originalAmount)).sum ∧
        (l.foldl (fun a p => processRow dc ac a p.1 p.2) acc).totalEligible
          = ((l.foldl (fun a p => processRow dc ac a p.1 p.2) acc).lineItems.map
              (fun li => li.eligibleAmount)).sum := by
  intro l
  induction l with
  | nil => intro acc h1 h2; exact ⟨h1, h2⟩
  | cons p t ih =>
    intro acc h1 h2
    rw [List.foldl_cons]
    obtain ⟨g1, g2⟩ := processRow_inv dc ac acc p.1 p.2 h1 h2
    exact ih _ g1 g2

theorem foldl_rows_skip (dc ac : String) :
    ∀ (l : List (ℕ × Row)) (acc : AnalysisResult),
      (∀ p ∈ l, descriptionOf p.2 dc = "" ∨ amountOf p.2 ac = 0) →
      l.foldl (fun a p => processRow dc ac a p.1 p.2) acc = acc := by
  intro l
  induction l with
  | nil => intro acc _; rfl
  | cons p t ih =>
    intro acc h
    rw [List.foldl_cons, processRow_skip dc ac acc p.1 p.2 (h p (List.mem_cons_self _ _))]
    exact ih acc (fun q hq => h q (List.mem_cons_of_mem _ hq))

theorem mem_enumRows : ∀ (l : List Row) (n : ℕ) (p : ℕ × Row), p ∈ enumRows n l → p.2 ∈ l := by
  intro l
  induction l with
  | nil => intro n p h; simp [enumRows] at h
  | cons r t ih =>
    intro n p h
    simp only [enumRows, List.mem_cons] at h
    rcases h with h | h
    · subst h; exact List.mem_cons_self _ _
    · exact List.mem_cons_of_mem _ (ih (n + 1) p h)

/-! ## Helper lemmas: whitespace-only strings -/

theorem jsCharLower_space {c : Char} (h : isJsSpace c = true) : jsCharLower c = c := by
  simp only [isJsSpace, Bool.or_eq_true, beq_iff_eq] at h
  rcases h with (((((h | h) | h) | h) | h) | h) <;> subst h <;> decide

theorem map_jsCharLower_space : ∀ {l : List Char}, (∀ c ∈ l, isJsSpace c = true) →
    l.map jsCharLower = l := by
  intro l
  induction l with
  | nil => intro _; rfl
  | cons c t ih =>
    intro h
    simp only [List.map_cons]
    rw [jsCharLower_space (h c (List.mem_cons_self _ _)),
      ih (fun d hd => h d (List.mem_cons_of_mem _ hd))]

theorem jsToLower_space (s : String) (h : ∀ c ∈ s.toList, isJsSpace c = true) :
    jsToLower s = s := by
  show String.mk (s.toList.map jsCharLower) = s
  rw [map_jsCharLower_space h]
  rfl

theorem dropWhile_space : ∀ {l : List Char}, (∀ c ∈ l, isJsSpace c = true) →
    l.dropWhile isJsSpace = [] := by
  intro l
  induction l with
  | nil => intro _; rfl
  | cons c t ih =>
    intro h
    rw [List.dropWhile_cons, if_pos (h c (List.mem_cons_self _ _))]
    exact ih (fun d hd => h d (List.mem_cons_of_mem _ hd))

theorem jsTrim_space (s : String) (h : ∀ c ∈ s.toList, isJsSpace c = true) :
    jsTrim s = "" := by
  show String.mk (((s.toList.dropWhile isJsSpace).reverse.dropWhile isJsSpace).reverse) = ""
  rw [dropWhile_space h]
  rfl

theorem charsStartWith_space : ∀ {needle hay : List Char},
    (∀ c ∈ hay, isJsSpace c = true) → needle.any (fun c => !isJsSpace c) = true →
    charsStartWith needle hay = false := by
  intro needle
  induction needle with
  | nil => intro hay _ hn; simp at hn
  | cons n ns ih =>
    intro hay hh hn
    cases hay with
    | nil => rfl
    | cons h hs =>
      simp only [charsStartWith]
      cases hne : n == h with
      | false => simp
      | true =>
        have heq : n = h := beq_iff_eq.mp hne
        have hsp : isJsSpace n = true := heq ▸ hh h (List.mem_cons_self _ _)
        have hn2 : ns.any (fun c => !isJsSpace c) = true := by
          simp only [List.any_cons, hsp, Bool.not_true, Bool.false_or] at hn
          exact hn
        rw [ih (fun d hd => hh d (List.mem_cons_of_mem _ hd)) hn2]
        simp

theorem charsContain_space : ∀ {hay needle : List Char},
    (∀ c ∈ hay, isJsSpace c = true) → needle.any (fun c => !isJsSpace c) = true →
    charsContain hay needle = false := by
  intro hay
  induction hay with
  | nil =>
    intro needle _ hn
    show charsStartWith needle [] = false
    exact charsStartWith_space (by simp) hn
  | cons h hs ih =>
    intro needle hh hn
    show (charsStartWith needle (h :: hs) || charsContain hs needle) = false
    rw [charsStartWith_space hh hn, ih (fun d hd => hh d (List.mem_cons_of_mem _ hd)) hn]
    rfl

/-- Every `not_eligible` keyword (lower-cased) has a non-whitespace
character. -/
theorem notEligibleKeywords_nonspace :
    ∀ kw ∈ CATEGORY_KEYWORDS EligibilityCategory.not_eligible,
      ((jsToLower kw).toList.any (fun c => !isJsSpace c)) = true := by decide

/-- Every keyword of every scored category (lower-cased) has a
non-whitespace character. -/
theorem orderKeywords_nonspace :
    ∀ cat ∈ categoryOrder, ∀ kw ∈ CATEGORY_KEYWORDS cat,
      ((jsToLower kw).toList.any (fun c => !isJsSpace c)) = true := by decide

theorem keywordScore_space (s : String) (hs : ∀ c ∈ s.toList, isJsSpace c = true)
    (kw : String) (hkw : ((jsToLower kw).toList.any (fun c => !isJsSpace c)) = true) :
    keywordScore s kw = 0 := by
  simp only [keywordScore]
  rw [if_neg (by rw [charsContain_space hs hkw]; exact Bool.false_ne_true)]

theorem categoryScore_space (s : String) (hs : ∀ c ∈ s.toList, isJsSpace c = true)
    (cat : EligibilityCategory)
    (hcat : ∀ kw ∈ CATEGORY_KEYWORDS cat, ((jsToLower kw).toList.any (fun c => !isJsSpace c)) = true) :
    categoryScore s cat = 0 := by
  simp only [categoryScore]
  apply List.sum_eq_zero
  intro x hx
  obtain ⟨kw, hkw, hx⟩ := List.mem_map.mp hx
  rw [← hx]
  exact keywordScore_space s hs kw (hcat kw hkw)

theorem selectBest_zero (excl : EligibilityCategory → Bool) (score : EligibilityCategory → ℕ) :
    ∀ l : List EligibilityCategory, (∀ c ∈ l, score c = 0) →
      selectBest excl score l = (EligibilityCategory.not_eligible, 0) := by
  intro l
  induction l with
  | nil => intro _; rfl
  | cons c t ih =>
    intro h
    have hc : score c = 0 := h c (List.mem_cons_self _ _)
    have hstep :
        (if excl c then ((EligibilityCategory.not_eligible, 0) : EligibilityCategory × ℕ)
         else foldStep (EligibilityCategory.not_eligible, 0) (c, score c))
          = (EligibilityCategory.not_eligible, 0) := by
      cases he : excl c <;> simp [foldStep, hc, he]
    simp only [selectBest, List.foldl_cons] at ih ⊢
    rw [hstep]
    exact ih (fun d hd => h d (List.mem_cons_of_mem _ hd))

theorem selectBest_pos (excl : EligibilityCategory → Bool) (score : EligibilityCategory → ℕ)
    (l : List EligibilityCategory)
    (h : (selectBest excl score l).1 ≠ EligibilityCategory.not_eligible) :
    0 < (selectBest excl score l).2 := by
  rw [selectBest_char] at h ⊢
  by_cases hM : 0 < maxScoreL ((l.filter (fun c => !excl c)).map (fun c => (c, score c)))
  · rw [if_pos hM] at h ⊢
    obtain ⟨y, hy, hy2⟩ := maxScoreL_attained _ hM
    rw [hy]
    simpa [hy2] using hM
  · rw [if_neg hM] at h
    exact absurd rfl h

/-! ## Claim theorems -/

/-- C1: for every sheet and description/amount column pair, the analysis
result of `analyze_line_items` satisfies `totalOriginal` = sum of
`originalAmount` over its line items and `totalEligible` = sum of
`eligibleAmount` over its line items. -/
theorem analyze_totals_are_sums (sheet : Sheet) (descCol amountCol : String) :
    (analyzeLineItems sheet descCol amountCol).totalOriginal
        = ((analyzeLineItems sheet descCol amountCol).lineItems.map
            (fun li => li.originalAmount)).sum ∧
      (analyzeLineItems sheet descCol amountCol).totalEligible
        = ((analyzeLineItems sheet descCol amountCol).lineItems.map
            (fun li => li.eligibleAmount)).sum := by
  unfold analyzeLineItems
  exact foldl_rows_inv descCol amountCol (enumRows 0 sheet.rows) emptyResult
    (by simp [emptyResult]) (by simp [emptyResult])

/-- C2: on the sheet [("HVAC Replacement", 100000), ("Subtotal", 100000),
("Furniture", 5000)] the analysis yields exactly the two line items (the
Subtotal row skipped as an aggregate), totalOriginal = 105000 and
totalEligible = 100000; and in general a row is skipped with no counters
affected when its description is empty or its amount is exactly 0, and
skipped with `skippedAggregates` incremented when `isAggregateRow` holds of
its description. -/
theorem analyze_example_and_skip_rules :
    analyzeLineItems exampleSheet "Description" "Amount" =
      { lineItems :=
          [{ rowIndex := 0, description := "HVAC Replacement", originalAmount := 100000,
             eligibleAmount := 100000, eligibilityCategory := .hvac, eligibilityPercentage := 1,
             reasoning := "HVAC systems including heating, ventilation, air conditioning, chillers, boilers" },
           { rowIndex := 2, description := "Furniture", originalAmount := 5000,
             eligibleAmount := 0, eligibilityCategory := .not_eligible, eligibilityPercentage := 0,
             reasoning := "Not eligible for PACE financing" }],
        totalOriginal := 105000, totalEligible := 100000, skippedAggregates := 1 } ∧
    (∀ (dc ac : String) (acc : AnalysisResult) (i : ℕ) (row : Row),
        descriptionOf row dc = "" ∨ amountOf row ac = 0 →
        processRow dc ac acc i row = acc) ∧
    (∀ (dc ac : String) (acc : AnalysisResult) (i : ℕ) (row : Row),
        descriptionOf row dc ≠ "" → amountOf row ac ≠ 0 →
        isAggregateRow (descriptionOf row dc) = true →
        processRow dc ac acc i row =
          { acc with skippedAggregates := acc.skippedAggregates + 1 }) := by
  refine ⟨?_, ?_, ?_⟩
  · have h0 : analyzeLineItems exampleSheet "Description" "Amount"
        = processRow "Description" "Amount"
            (processRow "Description" "Amount"
              (processRow "Description" "Amount" emptyResult 0
                [("Description", .str "HVAC Replacement"), ("Amount", .num 100000)])
              1 [("Description", .str "Subtotal"), ("Amount", .num 100000)])
            2 [("Description", .str "Furniture"), ("Amount", .num 5000)] := rfl
    rw [h0]
    rw [processRow_accept "Description" "Amount" emptyResult 0
        [("Description", .str "HVAC Replacement"), ("Amount", .num 100000)]
        (by decide) (by decide) (by decide)]
    rw [show descriptionOf [("Description", CellValue.str "HVAC Replacement"),
          ("Amount", CellValue.num 100000)] "Description" = "HVAC Replacement" from by decide]
    rw [show amountOf [("Description", CellValue.str "HVAC Replacement"),
          ("Amount", CellValue.num 100000)] "Amount" = 100000 from by decide]
    rw [show (classifyLineItem "HVAC Replacement").1 = EligibilityCategory.hvac from by decide]
    rw [processRow_aggregate "Description" "Amount" _ 1
        [("Description", .str "Subtotal"), ("Amount", .num 100000)]
        (by decide) (by decide) (by decide)]
    rw [processRow_accept "Description" "Amount" _ 2
        [("Description", .str "Furniture"), ("Amount", .num 5000)]
        (by decide) (by decide) (by decide)]
    rw [show descriptionOf [("Description", CellValue.str "Furniture"),
          ("Amount", CellValue.num 5000)] "Description" = "Furniture" from by decide]
    rw [show amountOf [("Description", CellValue.str "Furniture"),
          ("Amount", CellValue.num 5000)] "Amount" = 5000 from by decide]
    rw [show (classifyLineItem "Furniture").1 = EligibilityCategory.not_eligible from by decide]
    simp only [emptyResult, calculateEligibleAmount, PACE_percentage, PACE_description]
    norm_num
  · exact fun dc ac acc i row h => processRow_skip dc ac acc i row h
  · exact fun dc ac acc i row hd ha hagg => processRow_aggregate dc ac acc i row hd ha hagg

/-- C2 witness: the skip rules applied at concrete rows: an empty row is
skipped leaving the accumulator unchanged, and a "Subtotal" row with a
nonzero amount is skipped with the aggregate counter incremented. -/
theorem analyze_skip_rules_witness :
    processRow "d" "a" emptyResult 0 [] = emptyResult ∧
    processRow "d" "a" emptyResult 1 [("d", CellValue.str "Subtotal"), ("a", CellValue.num 5)] =
      { emptyResult with skippedAggregates := emptyResult.skippedAggregates + 1 } :=
  ⟨analyze_example_and_skip_rules.2.1 "d" "a" emptyResult 0 [] (Or.inl (by decide)),
   analyze_example_and_skip_rules.2.2 "d" "a" emptyResult 1
     [("d", CellValue.str "Subtotal"), ("a", CellValue.num 5)]
     (by decide) (by decide) (by decide)⟩

/-- C3: every description containing (case-insensitively, as a substring)
some `not_eligible` keyword of length at least 6 is classified
`not_eligible` with confidence exactly 0.9. -/
theorem not_eligible_short_circuit_rule (description kw : String)
    (hmem : kw ∈ CATEGORY_KEYWORDS EligibilityCategory.not_eligible)
    (hlen : 6 ≤ kw.length)
    (hsub : charsContain (jsToLower description).toList (jsToLower kw).toList = true) :
    classifyLineItem description = (EligibilityCategory.not_eligible, 9/10) := by
  have hsc : notEligibleShortCircuit (jsToLower description) = true := by
    apply List.any_eq_true.mpr
    refine ⟨kw, hmem, ?_⟩
    rw [Bool.and_eq_true]
    exact ⟨hsub, decide_eq_true hlen⟩
  simp only [classifyLineItem]
  rw [if_pos hsc]

/-- C3 witness: "Office furniture" contains the keyword "furniture"
(length 9) and is classified `not_eligible` with confidence 0.9. -/
theorem not_eligible_short_circuit_rule_witness :
    classifyLineItem "Office furniture" = (EligibilityCategory.not_eligible, 9/10) :=
  not_eligible_short_circuit_rule "Office furniture" "furniture" (by decide) (by decide) (by decide)

/-- C4: for every description that is not short-circuited to
`not_eligible`, the classifier agrees with the specification's selection
rule: among the non-excluded candidate categories in priority order, each
scored by its keywords (2 × length per substring hit plus 1 × length for a
word-boundary match), the earliest category attaining the strictly highest
score is returned, with confidence `min(bestScore/30, 1)` when that score
is positive and `(not_eligible, 0)` otherwise. -/
theorem classify_refines_spec (description : String)
    (h : notEligibleShortCircuit (jsToLower description) = false) :
    classifyLineItem description = classifySpec description := by
  simp only [classifyLineItem, classifySpec, classifyCandidates, h, Bool.false_eq_true,
    if_false]
  rw [selectBest_char]
  by_cases hM : 0 < maxScoreL ((categoryOrder.filter
      (fun c => !isExcluded (jsToLower description) c)).map
      (fun c => (c, categoryScore (jsToLower description) c)))
  · obtain ⟨y, hy, hy2⟩ := maxScoreL_attained _ hM
    rw [if_pos hM, if_pos hM, hy]
    simp only [Option.getD_some]
    rw [hy2, if_pos hM]
  · rw [if_neg hM, if_neg hM]
    simp

/-- C4 witness: "Install rooftop VRF HVAC units" is not short-circuited,
and the classifier agrees with the specification's rule on it. -/
theorem classify_refines_spec_witness :
    notEligibleShortCircuit (jsToLower "Install rooftop VRF HVAC units") = false ∧
    classifyLineItem "Install rooftop VRF HVAC units"
      = classifySpec "Install rooftop VRF HVAC units" :=
  ⟨by decide, classify_refines_spec "Install rooftop VRF HVAC units" (by decide)⟩

/-- C9: for every description the returned confidence lies in [0, 1], and
whenever the returned category is not `not_eligible` the confidence is
strictly positive. -/
theorem classify_confidence_bounds (description : String) :
    0 ≤ (classifyLineItem description).2 ∧ (classifyLineItem description).2 ≤ 1 ∧
      ((classifyLineItem description).1 ≠ EligibilityCategory.not_eligible →
        0 < (classifyLineItem description).2) := by
  cases hsc : notEligibleShortCircuit (jsToLower description) with
  | true =>
    have he : classifyLineItem description = (EligibilityCategory.not_eligible, 9/10) := by
      simp only [classifyLineItem]
      rw [if_pos hsc]
    rw [he]
    exact ⟨by norm_num, by norm_num, fun hne => absurd rfl hne⟩
  | false =>
    have he : classifyLineItem description
        = ((selectBest (isExcluded (jsToLower description))
              (categoryScore (jsToLower description)) categoryOrder).1,
           if 0 < (selectBest (isExcluded (jsToLower description))
                (categoryScore (jsToLower description)) categoryOrder).2 then
             min (((selectBest (isExcluded (jsToLower description))
                (categoryScore (jsToLower description)) categoryOrder).2 : ℚ) / 30) 1
           else 0) := by
      simp only [classifyLineItem]
      rw [if_neg (by simp [hsc])]
    rw [he]
    refine ⟨?_, ?_, ?_⟩
    · show (0 : ℚ) ≤ _
      simp only
      split
      · exact le_min (by positivity) (by norm_num)
      · norm_num
    · show _ ≤ (1 : ℚ)
      simp only
      split
      · exact min_le_right _ _
      · norm_num
    · intro hne
      have hpos : 0 < (selectBest (isExcluded (jsToLower description))
          (categoryScore (jsToLower description)) categoryOrder).2 :=
        selectBest_pos _ _ _ hne
      show (0 : ℚ) < _
      simp only
      rw [if_pos hpos]
      refine lt_min ?_ (by norm_num)
      have : (0 : ℚ) < ((selectBest (isExcluded (jsToLower description))
          (categoryScore (jsToLower description)) categoryOrder).2 : ℚ) :=
        Nat.cast_pos.mpr hpos
      positivity

/-- C9 witness: "hvac" is classified into a category other than
`not_eligible`, so its confidence is strictly positive. -/
theorem classify_confidence_bounds_witness :
    0 < (classifyLineItem "hvac").2 :=
  (classify_confidence_bounds "hvac").2.2 (by decide)

/-- C5: `isAggregateRow` is a pure predicate of the description that holds
exactly when the description is empty or its trimmed lower-cased text
matches one of the seventeen listed aggregate patterns; in particular
"Subtotal - Division 02" is an aggregate row while "Division 02 Electrical
Upgrade" is not. -/
theorem isAggregateRow_characterization :
    isAggregateRow "Subtotal - Division 02" = true ∧
    isAggregateRow "Division 02 Electrical Upgrade" = false ∧
    ∀ d : String,
      isAggregateRow d =
        (d == "" ||
          (testPat pSubtotal (jsTrim (jsToLower d)) ||
           testPat pSubDashTotal (jsTrim (jsToLower d)) ||
           testPat pSubSpaceTotal (jsTrim (jsToLower d)) ||
           testPat pLeadingTotal (jsTrim (jsToLower d)) ||
           testPat pTrailingTotal (jsTrim (jsToLower d)) ||
           testPat pTotalDashColon (jsTrim (jsToLower d)) ||
           testPat pGrandTotal (jsTrim (jsToLower d)) ||
           testPat pHardCostTotal (jsTrim (jsToLower d)) ||
           testPat pSoftCostTotal (jsTrim (jsToLower d)) ||
           testPat pProjectTotal (jsTrim (jsToLower d)) ||
           testPat pContractTotal (jsTrim (jsToLower d)) ||
           testPat pConstructionTotal (jsTrim (jsToLower d)) ||
           testPat pDivisionTotal (jsTrim (jsToLower d)) ||
           testPat pDivisionDash (jsTrim (jsToLower d)) ||
           testPat pCsiSection (jsTrim (jsToLower d)) ||
           testPat pDivisionBare (jsTrim (jsToLower d)) ||
           testPat pCsiLineItem (jsTrim (jsTrim (jsToLower d))))) := by
  refine ⟨by decide, by decide, ?_⟩
  intro d
  cases hd : (d == "") with
  | true => simp [isAggregateRow, hd]
  | false => simp [isAggregateRow, hd, aggregatePatterns, Bool.or_assoc]

/-- C6 counterexample: with a sheet whose only header is "A", asking for
the absent columns "Description"/"Amount" does not fail: the tool returns
a successful (empty) `AnalysisResult`, not a not-found error. -/
theorem analyze_missing_columns_returns_result :
    analyzeTool exampleWorkbookA "Sheet1" "Description" "Amount"
      = Except.ok ⟨[], 0, 0, 0⟩ := by
  have h : analyzeLineItems
      { name := "Sheet1", headers := ["A"], rows := [[("A", .str "HVAC Replacement")]] }
      "Description" "Amount" = emptyResult := by
    unfold analyzeLineItems
    apply foldl_rows_skip
    intro p hp
    have := mem_enumRows _ _ _ hp
    simp only [List.mem_singleton] at this
    rw [this]
    left
    decide
  show Except.ok _ = _
  rw [h]
  rfl

/-- C6 amended: only a failed sheet lookup produces a not-found error; when
the sheet exists but the named description or amount column is absent from
its headers (row keys being drawn from the headers), the tool succeeds with
an empty result: no line items, zero totals, zero skipped aggregates. -/
theorem analyze_missing_columns_amended (wb : ParsedWorkbook)
    (sheetName descCol amountCol : String) :
    (getSheetByName wb sheetName = none →
      analyzeTool wb sheetName descCol amountCol
        = Except.error ("Sheet \x22" ++ sheetName ++ "\x22 not found")) ∧
    (∀ sheet, getSheetByName wb sheetName = some sheet →
      descCol ∉ sheet.headers ∨ amountCol ∉ sheet.headers →
      (∀ row ∈ sheet.rows, ∀ kv ∈ row, kv.1 ∈ sheet.headers) →
      analyzeTool wb sheetName descCol amountCol
        = Except.ok ⟨[], 0, 0, 0⟩) := by
  constructor
  · intro h
    simp only [analyzeTool, h]
  · intro sheet hs hcol hkeys
    simp only [analyzeTool, hs]
    have h : analyzeLineItems sheet descCol amountCol = emptyResult := by
      unfold analyzeLineItems
      apply foldl_rows_skip
      intro p hp
      have hrow : p.2 ∈ sheet.rows := mem_enumRows _ _ _ hp
      rcases hcol with hc | hc
      · left
        have hnone : lookupCell p.2 descCol = none := by
          simp only [lookupCell]
          rw [List.find?_eq_none.mpr]
          · rfl
          · intro kv hkv hbeq
            exact hc (beq_iff_eq.mp hbeq ▸ hkeys p.2 hrow kv hkv)
        simp [descriptionOf, hnone]
      · right
        have hnone : lookupCell p.2 amountCol = none := by
          simp only [lookupCell]
          rw [List.find?_eq_none.mpr]
          · rfl
          · intro kv hkv hbeq
            exact hc (beq_iff_eq.mp hbeq ▸ hkeys p.2 hrow kv hkv)
        simp [amountOf, hnone]
    rw [h]
    rfl

/-- C6 amended witness: a missing sheet yields the error result, and a
present sheet with both requested columns absent yields the empty ok
result. -/
theorem analyze_missing_columns_amended_witness :
    analyzeTool exampleWorkbookA "Nope" "Description" "Amount"
        = Except.error ("Sheet \x22" ++ "Nope" ++ "\x22 not found") ∧
    analyzeTool exampleWorkbookA "Sheet1" "Desc2" "Amt2"
        = Except.ok ⟨[], 0, 0, 0⟩ :=
  ⟨(analyze_missing_columns_amended exampleWorkbookA "Nope" "Description" "Amount").1
     (by decide),
   (analyze_missing_columns_amended exampleWorkbookA "Sheet1" "Desc2" "Amt2").2
     { name := "Sheet1", headers := ["A"], rows := [[("A", CellValue.str "HVAC Replacement")]] }
     (by decide) (Or.inl (by decide)) (by decide)⟩

/-- C7: the materialization step drops the row immediately after the header
unconditionally (`rows[0]`, an object, is always truthy), so a first data
row that is not a duplicate of the header is still dropped: with one
genuine post-header data row, `Sheet.rows` comes out empty. -/
theorem first_data_row_always_dropped :
    (∀ (r : Row) (rs : List Row), materializeDataRows (r :: rs) = rs) ∧
    materializeDataRows
        [[("Description", CellValue.str "HVAC Replacement"), ("Total", CellValue.num 100000)]]
      = [] := by
  constructor
  · intro r rs
    simp [materializeDataRows]
  · decide

/-- C8: a row whose description cell holds the falsy non-string value 0 or
`false` is coerced to the empty description and excluded outright: no line
item, no counter change, whatever the amount cell holds. -/
theorem falsy_description_row_excluded (row : Row) (dc ac : String)
    (acc : AnalysisResult) (i : ℕ)
    (h : lookupCell row dc = some (CellValue.num 0) ∨
      lookupCell row dc = some (CellValue.boolean false)) :
    descriptionOf row dc = "" ∧ processRow dc ac acc i row = acc := by
  have hdesc : descriptionOf row dc = "" := by
    rcases h with h | h <;> simp [descriptionOf, h, jsTruthy]
  exact ⟨hdesc, processRow_skip dc ac acc i row (Or.inl hdesc)⟩

/-- C8 witness: a row with description cell 0 and amount cell 500 is
excluded. -/
theorem falsy_description_row_excluded_witness :
    descriptionOf [("d", CellValue.num 0), ("a", CellValue.num 500)] "d" = "" ∧
    processRow "d" "a" emptyResult 0 [("d", CellValue.num 0), ("a", CellValue.num 500)]
      = emptyResult :=
  falsy_description_row_excluded [("d", CellValue.num 0), ("a", CellValue.num 500)]
    "d" "a" emptyResult 0 (Or.inl (by decide))

/-- C10: a description of only whitespace is not treated as empty: it is
not an aggregate row, it classifies as `not_eligible` with confidence 0,
and a row carrying it with a nonzero amount is accepted as a line item
with eligible amount 0, adding its full amount to `totalOriginal` and
nothing to `totalEligible`. -/
theorem whitespace_description_accepted (s : String) (hne : s ≠ "")
    (hws : ∀ c ∈ s.toList, isJsSpace c = true) :
    isAggregateRow s = false ∧
    classifyLineItem s = (EligibilityCategory.not_eligible, 0) ∧
    (∀ (a : ℚ), a ≠ 0 → ∀ (dc ac : String), dc ≠ ac → ∀ (acc : AnalysisResult) (i : ℕ),
      processRow dc ac acc i [(dc, CellValue.str s), (ac, CellValue.num a)] =
        { lineItems := acc.lineItems ++
            [{ rowIndex := i, description := s, originalAmount := a, eligibleAmount := 0,
               eligibilityCategory := EligibilityCategory.not_eligible,
               eligibilityPercentage := 0,
               reasoning := "Not eligible for PACE financing" }]
          totalOriginal := acc.totalOriginal + a
          totalEligible := acc.totalEligible
          skippedAggregates := acc.skippedAggregates }) := by
  have hlow : jsToLower s = s := jsToLower_space s hws
  have htrim : jsTrim s = "" := jsTrim_space s hws
  have hagg : isAggregateRow s = false := by
    simp only [isAggregateRow]
    rw [if_neg (by simpa using hne), hlow, htrim]
    decide
  have hsc : notEligibleShortCircuit (jsToLower s) = false := by
    rw [hlow]
    simp only [notEligibleShortCircuit, List.any_eq_false]
    intro kw hkw
    rw [Bool.and_eq_true]
    intro ⟨hcon, _⟩
    rw [charsContain_space hws (notEligibleKeywords_nonspace kw hkw)] at hcon
    exact Bool.false_ne_true hcon
  have hcls : classifyLineItem s = (EligibilityCategory.not_eligible, 0) := by
    simp only [classifyLineItem]
    rw [if_neg (by simp [hsc]), hlow]
    rw [selectBest_zero _ _ categoryOrder
      (fun c hc => categoryScore_space s hws c (orderKeywords_nonspace c hc))]
    norm_num
  refine ⟨hagg, hcls, ?_⟩
  intro a ha dc ac hdcac acc i
  have hlk1 : lookupCell [(dc, CellValue.str s), (ac, CellValue.num a)] dc
      = some (CellValue.str s) := by
    simp only [lookupCell]
    rw [List.find?_cons_of_pos _ (by simp)]
    rfl
  have hlk2 : lookupCell [(dc, CellValue.str s), (ac, CellValue.num a)] ac
      = some (CellValue.num a) := by
    simp only [lookupCell]
    rw [List.find?_cons_of_neg _ (by simp [hdcac]), List.find?_cons_of_pos _ (by simp)]
    rfl
  have hdesc : descriptionOf [(dc, CellValue.str s), (ac, CellValue.num a)] dc = s := by
    simp only [descriptionOf, hlk1]
    rw [if_pos (by simp [jsTruthy, hne])]
    rfl
  have hamt : amountOf [(dc, CellValue.str s), (ac, CellValue.num a)] ac = a := by
    simp only [amountOf, hlk2]
  rw [processRow_accept dc ac acc i _ (by rw [hdesc]; exact hne) (by rw [hamt]; exact ha)
    (by rw [hdesc]; exact hagg)]
  rw [hdesc, hamt, hcls]
  simp [calculateEligibleAmount, PACE_percentage, PACE_description]

/-- C10 witness: a single-space description with amount 5 is accepted as a
`not_eligible` line item with eligible amount 0. -/
theorem whitespace_description_accepted_witness :
    processRow "d" "a" emptyResult 0 [("d", CellValue.str " "), ("a", CellValue.num 5)] =
      { lineItems := emptyResult.lineItems ++
          [{ rowIndex := 0, description := " ", originalAmount := 5, eligibleAmount := 0,
             eligibilityCategory := EligibilityCategory.not_eligible,
             eligibilityPercentage := 0,
             reasoning := "Not eligible for PACE financing" }]
        totalOriginal := emptyResult.totalOriginal + 5
        totalEligible := emptyResult.totalEligible
        skippedAggregates := emptyResult.skippedAggregates } :=
  (whitespace_description_accepted " " (by decide) (by decide)).2.2 5 (by decide)
    "d" "a" (by decide) emptyResult 0
